import Mathlib

/-!
Verification of the RAG chatbot core (integratedChatService.ts,
vectorDatabaseService.ts, localEmbeddingService.js,
simpleDocumentProcessingService.js) against its design specification.

JavaScript strings are modelled as lists of UTF-16 code units
(`Str := List Nat`); JavaScript numbers are modelled as rationals, with
the transcendental functions (`Math.sin`, `Math.sqrt`) passed in as
opaque function parameters, since no verified claim depends on their
values.  All definitions are executable and translated directly from the
source files; network-bound collaborators (Pinecone, Groq) are
parameters of the model (an `Env`), matching the spec's treatment of
them as opaque external services.
-/

/-- A JavaScript string: a sequence of UTF-16 code units. -/
abbrev Str := List Nat

/-- Embed an (ASCII) Lean string literal as a JS string. -/
def js (s : String) : Str := s.data.map Char.toNat

/-- The JavaScript whitespace class (`\s`, and the set trimmed by
`String.prototype.trim`), restricted to the code units that can occur in
this code base: TAB, LF, VT, FF, CR, SPACE, NBSP. -/
def wsJS (c : Nat) : Bool :=
  c == 9 || c == 10 || c == 11 || c == 12 || c == 13 || c == 32 || c == 160

/-- JS `String.prototype.trim`: drop leading and trailing whitespace. -/
def trimJS (s : Str) : Str :=
  ((s.dropWhile wsJS).reverse.dropWhile wsJS).reverse

/-- JS `String.prototype.toLowerCase` on the ASCII range (the only
case-mapped characters appearing in the modelled vocabulary). -/
def toLowerJS (s : Str) : Str :=
  s.map (fun c => if 65 ≤ c && c ≤ 90 then c + 32 else c)

/-- JS `s.split(sep)` for a single-character separator: split at every
occurrence, keeping empty pieces (e.g. `"a  b".split(' ') = ["a","","b"]`). -/
def splitEvery (p : Nat → Bool) : Str → List Str
  | [] => [[]]
  | c :: rest =>
    let r := splitEvery p rest
    if p c then [] :: r
    else
      match r with
      | [] => [[c]]
      | h :: t => (c :: h) :: t

/-- Helper for `splitRuns`: drop empty interior pieces, always keeping the
last piece. -/
def keepLast : List Str → List Str
  | [] => []
  | [x] => [x]
  | x :: xs => if x.isEmpty then keepLast xs else x :: keepLast xs

/-- JS `s.split(regex)` where the regex is a character class with `+`
(e.g. `/[.!?\n]+/` or `/\s+/`): split at maximal runs of separator
characters.  Pieces between two separators of the same run are empty and
are merged away; an empty leading piece (separator at position 0) and an
empty trailing piece (separator at the end) are kept, exactly as in JS. -/
def splitRuns (p : Nat → Bool) (s : Str) : List Str :=
  match splitEvery p s with
  | [] => []
  | x :: xs => x :: keepLast xs

/-- Substring containment (`/lit/.test(s)` for a literal pattern):
`sub` occurs contiguously somewhere in `l`. -/
def containsSeq (sub : Str) : Str → Bool
  | [] => sub.isPrefixOf []
  | l@(_ :: rest) => sub.isPrefixOf l || containsSeq sub rest

/-- JS word character (`\w` = `[A-Za-z0-9_]`), delimiting `\b` boundaries. -/
def wordCharJS (c : Nat) : Bool :=
  (48 ≤ c && c ≤ 57) || (65 ≤ c && c ≤ 90) || (97 ≤ c && c ≤ 122) || c == 95

/-- After matching `w` at the front of `l`, is the next position a `\b`
word boundary (end of string, or a non-word character)? -/
def boundaryAfter (w l : Str) : Bool :=
  match l.drop w.length with
  | [] => true
  | d :: _ => !wordCharJS d

/-- Scan for `\bw\b` in `l`; `prev` records whether the preceding
character was a word character (so that the left boundary holds). -/
def containsWordAux (w : Str) (prev : Bool) : Str → Bool
  | [] => false
  | l@(c :: rest) =>
    (!prev && w.isPrefixOf l && boundaryAfter w l) || containsWordAux w (wordCharJS c) rest

/-- `/\bw\b/i.test(s)` for a literal word `w` (already lowercased);
`s` is lowercased before scanning. -/
def containsWord (w : Str) (s : Str) : Bool :=
  containsWordAux w false (toLowerJS s)

/-- One alternative of `/^(hi|hai|hello|hey|good\s+morning|...)/i`:
`good` followed by at least one whitespace character, then `w`, as a
prefix of the (lowercased) string. -/
def goodWsWord (w : Str) (l : Str) : Bool :=
  (js "good").isPrefixOf l &&
    (let r := l.drop 4
     !(r.takeWhile wsJS).isEmpty && w.isPrefixOf (r.dropWhile wsJS))

/-- First greeting pattern of integratedChatService.ts
(`/^(hi|hai|hello|hey|good\s+morning|good\s+afternoon|good\s+evening)/i`),
applied to an already-lowercased string: the test succeeds iff some
alternative matches at position 0.  Note the absence of a trailing `\b`:
plain prefix matching. -/
def greetingPattern1 (l : Str) : Bool :=
  (js "hi").isPrefixOf l || (js "hai").isPrefixOf l ||
  (js "hello").isPrefixOf l || (js "hey").isPrefixOf l ||
  goodWsWord (js "morning") l || goodWsWord (js "afternoon") l ||
  goodWsWord (js "evening") l

/-- Second greeting pattern (`/^\s*(hi|hai|hello|hey)\s*$/i`) on an
already-lowercased string: optional whitespace, one of the four words,
optional whitespace, end of string.  The four alternatives are mutually
non-prefix, so trying them as plain prefixes is exact. -/
def greetingPattern2 (l : Str) : Bool :=
  let r := l.dropWhile wsJS
  ((js "hi").isPrefixOf r && (r.drop 2).all wsJS) ||
  ((js "hai").isPrefixOf r && (r.drop 3).all wsJS) ||
  ((js "hello").isPrefixOf r && (r.drop 5).all wsJS) ||
  ((js "hey").isPrefixOf r && (r.drop 3).all wsJS)

/-- `isGreeting` (integratedChatService.ts, lines 180-182):
`greetingPatterns.some(p => p.test(message.trim()))`. -/
def isGreeting (message : Str) : Bool :=
  greetingPattern1 (toLowerJS (trimJS message)) ||
  greetingPattern2 (toLowerJS (trimJS message))

/-- `/thank\s*you/i` at the front of `l`: `thank`, any run of whitespace
(`you` starts with a non-whitespace character, so the greedy run is
exact), then `you`. -/
def thankWsYouAt (l : Str) : Bool :=
  (js "thank").isPrefixOf l && (js "you").isPrefixOf ((l.drop 5).dropWhile wsJS)

/-- Scan for `/thank\s*you/i` anywhere in the string. -/
def containsThankWsYou : Str → Bool
  | [] => false
  | l@(_ :: rest) => thankWsYouAt l || containsThankWsYou rest

/-- `isThankYou` (integratedChatService.ts, lines 187-189): some thank-you
pattern (`/thank\s*you/i`, `/thanks/i`, `/good job/i`, `/well done/i`,
`/super/i`, `/great/i`, `/appreciate/i`) tests true on the trimmed
message; all patterns are unanchored. -/
def isThankYou (message : Str) : Bool :=
  let l := toLowerJS (trimJS message)
  containsThankWsYou l || containsSeq (js "thanks") l ||
  containsSeq (js "good job") l || containsSeq (js "well done") l ||
  containsSeq (js "super") l || containsSeq (js "great") l ||
  containsSeq (js "appreciate") l

/-- `questionPatterns` test (integratedChatService.ts, line 250):
`/\b(what|how|where|when|why|which|tell me|show me|give|generate|say|who|explain|describe|list)\b/i`
applied to the raw (untrimmed) message. -/
def hasQuestionWords (message : Str) : Bool :=
  [js "what", js "how", js "where", js "when", js "why", js "which",
   js "tell me", js "show me", js "give", js "generate", js "say",
   js "who", js "explain", js "describe", js "list"].any
    (fun w => containsWord w message)

/-- `listQueryPatterns` test (integratedChatService.ts, line 254):
`/\b(list|pins|pin|what are the|list the)\b/i` on the raw message. -/
def isListQuery (message : Str) : Bool :=
  [js "list", js "pins", js "pin", js "what are the", js "list the"].any
    (fun w => containsWord w message)

/-- Search breadth chosen for a message (line 258):
`topK = (isListQuery || hasQuestionWords) ? 15 : 8`. -/
def topKOf (message : Str) : Nat :=
  if isListQuery message || hasQuestionWords message then 15 else 8

/-- Recall floor chosen for a message (line 259):
`minScore = (isListQuery || hasQuestionWords) ? 0.15 : 0.25`. -/
def minScoreOf (message : Str) : ℚ :=
  if isListQuery message || hasQuestionWords message then 15/100 else 25/100


/-! ## Chat data model and the `sendMessage` pipeline

`ChatMessage` is modelled by its role and content; the `id` (a random
base-36 string) and `timestamp` fields of chatbotService.ts carry no
information any verified property depends on and are omitted.  The
session map is a function from session id to an optional session. -/

/-- Message role (chatbotService.ts). -/
inductive Role
  | user
  | assistant
deriving DecidableEq, Repr

/-- A chat message: role and content (id/timestamp omitted, see above). -/
structure ChatMessage where
  role : Role
  content : Str
deriving DecidableEq, Repr

/-- A chat session: its ordered message list (integratedChatService.ts
`ChatSession`; `userId`, `createdAt`, `updatedAt` are not relevant to any
verified property). -/
structure ChatSession where
  messages : List ChatMessage
deriving DecidableEq, Repr

/-- The in-memory session map `Map<string, ChatSession>`, with ids
abstracted to naturals. -/
def SessionStore := Nat → Option ChatSession

/-- `Map.set`. -/
def setStore (store : SessionStore) (sid : Nat) (s : ChatSession) : SessionStore :=
  fun k => if k = sid then some s else store k

/-- `chatbotService.createUserMessage`. -/
def mkUserMessage (content : Str) : ChatMessage := ⟨Role.user, content⟩

/-- `chatbotService.createAssistantMessage`. -/
def mkAssistantMessage (content : Str) : ChatMessage := ⟨Role.assistant, content⟩

/-- The four canned greeting replies (integratedChatService.ts, 28-33). -/
def greetingResponses : List Str :=
  [js "Hi, How can I help you?",
   js "Hello! How can I assist you today?",
   js "Hi there! What can I help you with?",
   js "Hey! Do you need any help?"]

/-- `thankYouResponse` (line 35): the apostrophe (code unit 39) is
spliced in explicitly. -/
def thankYouResponse : Str := js "You" ++ [39] ++ js "re welcome!"

/-- `irrelevantQueryResponse` (line 37): the fixed refusal sentence. -/
def irrelevantQueryResponse : Str :=
  js "Sorry, I can only help you with this application. Please ask any queries related to the application."

/-- The generic apology appended by `sendMessage`'s outer catch
(lines 401-403). -/
def sendMessageErrorResponse : Str :=
  js "I apologize, but I encountered an error while processing your request. Please try again."

/-- `getRandomGreeting` (lines 194-197): `Math.floor(Math.random() * 4)`
picks an index in `[0, 4)`; the random draw is a parameter of the model. -/
def getRandomGreeting (randomIndex : Fin 4) : Str :=
  greetingResponses.get ⟨randomIndex.val, randomIndex.isLt⟩

/-- A Pinecone record's metadata as used by the search path: its `type`
tag and its `content` text (vectorDatabaseService.ts `VectorMetadata`,
restricted to the fields the code reads). -/
structure RecordMetadata where
  type : Str
  content : Str
deriving DecidableEq, Repr

/-- One match of a Pinecone query response: `score` is optional because
the SDK types it as possibly undefined (the code reads `match.score || 0`). -/
structure QueryMatch where
  id : Str
  score : Option ℚ
  metadata : RecordMetadata
deriving DecidableEq, Repr

/-- `SearchResult` (vectorDatabaseService.ts, 29-33). -/
structure SearchResult where
  id : Str
  score : ℚ
  metadata : RecordMetadata
deriving DecidableEq, Repr

/-- `searchDocuments` (vectorDatabaseService.ts, 127-153), parameterized
by the opaque Pinecone `index.query` call (a function of `topK` and the
metadata type filter; the query vector is fixed for one call site).  The
code passes `filter: { type: 'document' }`, then keeps the matches whose
`score || 0` is at least `minScore`, in response order, and repackages
them as `SearchResult`s. -/
def searchDocuments (query : Nat → Str → List QueryMatch) (topK : Nat) (minScore : ℚ) :
    List SearchResult :=
  ((query topK (js "document")).filter (fun m => minScore ≤ m.score.getD 0)).map
    (fun m => ⟨m.id, m.score.getD 0, m.metadata⟩)

/-- Externally visible steps taken by one `sendMessage` call: embedding
generation, a vector search (with its `topK` and `minScore` arguments),
and a language-model call. -/
inductive Effect
  | embed
  | search (topK : Nat) (minScore : ℚ)
  | llm
deriving DecidableEq, Repr

/-- The opaque collaborators of one `sendMessage` call.  `searchDocs`
returns `Except`, modelling that `vectorService.searchDocuments` may
throw; `llm` (the Groq chat completion given the user message and the
retrieved document context) may throw as well.  `randomIndex` is the
greeting draw; `vectorAvailable` is whether `this.vectorService` is set. -/
structure Env where
  vectorAvailable : Bool
  randomIndex : Fin 4
  searchDocs : Nat → ℚ → Except Unit (List SearchResult)
  llm : Str → Str → Except Unit Str

/-- Result of one `sendMessage` call: the returned message, the updated
session map, and the trace of external effects. -/
structure SendOutcome where
  response : ChatMessage
  store : SessionStore
  effects : List Effect

/-- Shared tail of every answering path: append the assistant reply to
the session and return it. -/
def finishReply (store : SessionStore) (sid : Nat) (msgs : List ChatMessage)
    (resp : ChatMessage) (effects : List Effect) : SendOutcome :=
  ⟨resp, setStore store sid ⟨msgs ++ [resp]⟩, effects⟩

/-- The non-empty-retrieval tail of `sendMessage` (lines 306-395 and the
outer catch): join the retrieved passages with blank lines, call the
language model, and append its reply; if the call throws, the outer catch
appends the generic apology instead. -/
def answerFromDocs (env : Env) (message : Str) (store : SessionStore) (sid : Nat)
    (msgs : List ChatMessage) (docs : List SearchResult) (effects : List Effect) :
    SendOutcome :=
  let documentContext := List.intercalate (js "\n\n") (docs.map (fun d => d.metadata.content))
  match env.llm message documentContext with
  | Except.ok content =>
    finishReply store sid msgs (mkAssistantMessage content) (effects ++ [Effect.llm])
  | Except.error _ =>
    finishReply store sid msgs (mkAssistantMessage sendMessageErrorResponse)
      (effects ++ [Effect.llm])

/-- `sendMessage` (integratedChatService.ts, 202-413), as a function of
the environment, the message, the session map and the session id.

Control flow, in source order: look up the session (a missing session
throws `Session not found`, which the outer catch converts into the
generic apology *without* appending anything, since the catch's own
lookup also fails); push the user message; short-circuit on greeting,
then on thank-you; if no vector service is configured, reply with the
fixed refusal; otherwise embed the query, run the planned strict search,
run exactly one relaxed search (`topK=15, minScore=0.1`) if the strict
one returned nothing and its `minScore` exceeded `0.1`; a throw anywhere
in that block yields the fixed refusal; an empty final result yields the
fixed refusal; otherwise `answerFromDocs` finishes the call. -/
def sendMessage (env : Env) (message : Str) (store : SessionStore) (sid : Nat) :
    SendOutcome :=
  match store sid with
  | none => ⟨mkAssistantMessage sendMessageErrorResponse, store, []⟩
  | some session =>
    let msgs := session.messages ++ [mkUserMessage message]
    if isGreeting message then
      finishReply store sid msgs
        (mkAssistantMessage (getRandomGreeting env.randomIndex)) []
    else if isThankYou message then
      finishReply store sid msgs (mkAssistantMessage thankYouResponse) []
    else if env.vectorAvailable then
      let topK := topKOf message
      let minScore := minScoreOf message
      match env.searchDocs topK minScore with
      | Except.error _ =>
        finishReply store sid msgs (mkAssistantMessage irrelevantQueryResponse)
          [Effect.embed, Effect.search topK minScore]
      | Except.ok relevantDocs =>
        if relevantDocs.isEmpty && decide (1/10 < minScore) then
          match env.searchDocs 15 (1/10) with
          | Except.error _ =>
            finishReply store sid msgs (mkAssistantMessage irrelevantQueryResponse)
              [Effect.embed, Effect.search topK minScore, Effect.search 15 (1/10)]
          | Except.ok relaxedDocs =>
            if relaxedDocs.isEmpty then
              finishReply store sid msgs (mkAssistantMessage irrelevantQueryResponse)
                [Effect.embed, Effect.search topK minScore, Effect.search 15 (1/10)]
            else
              answerFromDocs env message store sid msgs relaxedDocs
                [Effect.embed, Effect.search topK minScore, Effect.search 15 (1/10)]
        else
          if relevantDocs.isEmpty then
            finishReply store sid msgs (mkAssistantMessage irrelevantQueryResponse)
              [Effect.embed, Effect.search topK minScore]
          else
            answerFromDocs env message store sid msgs relevantDocs
              [Effect.embed, Effect.search topK minScore]
    else
      finishReply store sid msgs (mkAssistantMessage irrelevantQueryResponse) []

/-- The search calls (with their arguments) recorded in an effect trace. -/
def searchCalls (effects : List Effect) : List (Nat × ℚ) :=
  effects.filterMap (fun e =>
    match e with
    | Effect.search k m => some (k, m)
    | _ => none)

/-! ## Document chunking (simpleDocumentProcessingService.js, `chunkText`) -/

/-- Sentence-ending separator class of `chunkText`: `/[.!?\n]+/`
(FULL STOP, EXCLAMATION MARK, QUESTION MARK, LINE FEED). -/
def sentenceSep (c : Nat) : Bool :=
  c == 46 || c == 33 || c == 63 || c == 10

/-- The sentence candidates of `chunkText` (line 113):
`text.split(/[.!?\n]+/).filter(s => s.trim().length > 0)`. -/
def sentencesOf (text : Str) : List Str :=
  (splitRuns sentenceSep text).filter (fun s => 0 < (trimJS s).length)

/-- A document chunk (the object literal built by `chunkText`; the
`id` string `` `${filename}-chunk-${i}` `` is determined by `filename`
and `chunkIndex` and is not materialized separately). -/
structure Chunk where
  text : Str
  filename : Str
  chunkIndex : Nat
  totalChunks : Nat
deriving DecidableEq, Repr

/-- Loop state of `chunkText`: the chunks pushed so far, the running
sentence buffer, and the running chunk index. -/
structure ChunkState where
  chunks : List Chunk
  currentChunk : Str
  chunkIndex : Nat
deriving Repr

/-- One iteration of the `for (const sentence of sentences)` loop of
`chunkText` (lines 116-142).  `maxChunkSize = 1000`; the overlap seed is
`currentChunk.split(' ').slice(-Math.floor(100 / 6)).join(' ') + ' ' + t`,
i.e. the last 16 space-separated fields of the closed buffer. -/
def chunkStep (filename : Str) (st : ChunkState) (sentence : Str) : ChunkState :=
  let t := trimJS sentence
  if 1000 < st.currentChunk.length + t.length + 1 then
    if 0 < (trimJS st.currentChunk).length then
      let words := splitEvery (fun c => c == 32) st.currentChunk
      let overlapWords := words.drop (words.length - 16)
      { chunks := st.chunks ++ [⟨trimJS st.currentChunk, filename, st.chunkIndex, 0⟩],
        currentChunk := List.intercalate [32] overlapWords ++ [32] ++ t,
        chunkIndex := st.chunkIndex + 1 }
    else
      { st with currentChunk := t }
  else
    { st with currentChunk :=
        st.currentChunk ++ (if st.currentChunk.isEmpty then [] else [46, 32]) ++ t }

/-- `chunkText` (simpleDocumentProcessingService.js, lines 109-160): fold
the loop over the sentence candidates, flush a trailing non-empty buffer,
then backfill `totalChunks` on every chunk. -/
def chunkText (text : Str) (filename : Str) : List Chunk :=
  let st := (sentencesOf text).foldl (chunkStep filename) ⟨[], [], 0⟩
  let chunks :=
    if 0 < (trimJS st.currentChunk).length then
      st.chunks ++ [⟨trimJS st.currentChunk, filename, st.chunkIndex, 0⟩]
    else st.chunks
  chunks.map (fun c => { c with totalChunks := chunks.length })

/-- Ghost-instrumented loop state for `chunkText`: identical to
`ChunkState` except that every chunk (and the running buffer) carries a
flag recording whether its buffer was seeded with overlap words from a
previously closed chunk.  The flag is proof-only bookkeeping; erasing it
recovers `chunkStep` exactly (`chunkStepG_erase`). -/
structure ChunkStateG where
  chunks : List (Chunk × Bool)
  currentChunk : Str
  chunkIndex : Nat
  seeded : Bool

/-- `chunkStep` with the seeded flag: closing a chunk records the current
flag on it and starts an overlap-seeded buffer (flag `true`); restarting
from a bare oversized sentence clears the flag; plain accumulation keeps
it. -/
def chunkStepG (filename : Str) (st : ChunkStateG) (sentence : Str) : ChunkStateG :=
  let t := trimJS sentence
  if 1000 < st.currentChunk.length + t.length + 1 then
    if 0 < (trimJS st.currentChunk).length then
      let words := splitEvery (fun c => c == 32) st.currentChunk
      let overlapWords := words.drop (words.length - 16)
      { chunks := st.chunks ++ [(⟨trimJS st.currentChunk, filename, st.chunkIndex, 0⟩, st.seeded)],
        currentChunk := List.intercalate [32] overlapWords ++ [32] ++ t,
        chunkIndex := st.chunkIndex + 1,
        seeded := true }
    else
      { st with currentChunk := t, seeded := false }
  else
    { st with currentChunk :=
        st.currentChunk ++ (if st.currentChunk.isEmpty then [] else [46, 32]) ++ t }

/-- `chunkText` with the seeded flag attached to every produced chunk. -/
def chunkTextG (text : Str) (filename : Str) : List (Chunk × Bool) :=
  let st := (sentencesOf text).foldl (chunkStepG filename) ⟨[], [], 0, false⟩
  let chunks :=
    if 0 < (trimJS st.currentChunk).length then
      st.chunks ++ [(⟨trimJS st.currentChunk, filename, st.chunkIndex, 0⟩, st.seeded)]
    else st.chunks
  chunks.map (fun p => ({ p.1 with totalChunks := chunks.length }, p.2))

/-! ## Fallback embedding (localEmbeddingService.js, `generateSimpleEmbedding`) -/

/-- JS `ToInt32` (the result type of `&`, `<<` on numbers): reduce an
integer to the range `[-2^31, 2^31)`. -/
def jsToInt32 (n : ℤ) : ℤ := (n + 2 ^ 31) % 2 ^ 32 - 2 ^ 31

/-- One step of the word hash (line 69):
`wordHash = ((wordHash << 5) - wordHash + word.charCodeAt(j)) & 0xffffffff`.
`wordHash << 5` is itself a 32-bit operation; the subtraction and
addition are exact (they stay far below 2^53) and the `&` reduces back
to 32 bits. -/
def wordHashStep (h : ℤ) (c : Nat) : ℤ :=
  jsToInt32 (jsToInt32 (h * 32) - h + c)

/-- The polynomial word hash accumulated over a word's code units. -/
def wordHash (w : Str) : ℤ := w.foldl wordHashStep 0

/-- `generateSimpleEmbedding` (localEmbeddingService.js, lines 55-82),
with `Math.sin` and `Math.sqrt` as opaque parameters and JS numbers as
rationals.  Start from a zero vector of length `dimension` (the caller
passes 384); for every character, add `sin(charCode * 0.1) * 0.1` at
index `charCode % dimension`; for every whitespace-split word of the
lowercased text, add `0.1` at index `|wordHash| % dimension`; finally
L2-normalize unless the magnitude is zero. -/
def generateSimpleEmbedding (sin sqrt : ℚ → ℚ) (text : Str) (dimension : Nat) : List ℚ :=
  let e0 : List ℚ := List.replicate dimension 0
  let e1 := text.foldl
    (fun e c => e.set (c % dimension) (e.getD (c % dimension) 0 + sin (c * (1/10)) * (1/10)))
    e0
  let words := splitRuns wsJS (toLowerJS text)
  let e2 := words.foldl
    (fun e w =>
      let index := (wordHash w).natAbs % dimension
      e.set index (e.getD index 0 + 1/10))
    e1
  let magnitude := sqrt (e2.foldl (fun sum v => sum + v * v) 0)
  if 0 < magnitude then e2.map (fun v => v / magnitude) else e2

/-- Erase the ghost flag from a chunking state. -/
def eraseG (g : ChunkStateG) : ChunkState :=
  ⟨g.chunks.map Prod.fst, g.currentChunk, g.chunkIndex⟩

/-- The ghost invariant of the chunking loop: an unseeded running buffer
holds at most `maxChunkSize + 1` characters (the `'. '` joiner adds one
more character than the size check accounts for), and every unseeded
chunk pushed so far is just as short. -/
def InvG (g : ChunkStateG) : Prop :=
  (g.seeded = false → g.currentChunk.length ≤ 1001) ∧
  ∀ p ∈ g.chunks, p.2 = false → p.1.text.length ≤ 1001

/-! Concrete inputs for the chunking counterexample. -/

/-- 900 letters `a`. -/
def exA : Str := List.replicate 900 97

/-- 900 letters `b`. -/
def exB : Str := List.replicate 900 98

/-- Two 900-character sentences and a 1-character one: no sentence
exceeds the 1000-character budget. -/
def exTextA : Str := exA ++ [46] ++ exB ++ [46] ++ [99]

/-- 499 letters `x`. -/
def exX : Str := List.replicate 499 120

/-- 500 letters `y`. -/
def exY : Str := List.replicate 500 121

/-- A 499- and a 500-character sentence followed by a 1-character one:
no sentence exceeds the budget, and no overlap seeding is involved in
the first chunk. -/
def exTextB : Str := exX ++ [46] ++ exY ++ [46] ++ [119]

/-! ## Theorems -/

/-- Both possible plans exceed the relaxed threshold: `minScore` is
`0.15` or `0.25`, always greater than `0.1`. -/
theorem minScoreOf_gt_tenth (message : Str) : 1/10 < minScoreOf message := by
  unfold minScoreOf
  split <;> norm_num

/-- `finishReply` stores exactly the appended message list under the
session id. -/
theorem finishReply_store_self (store : SessionStore) (sid : Nat) (msgs : List ChatMessage)
    (resp : ChatMessage) (effects : List Effect) :
    (finishReply store sid msgs resp effects).store sid = some ⟨msgs ++ [resp]⟩ := by
  simp [finishReply, setStore]

/-- `answerFromDocs` always ends in a single `finishReply` of an
assistant message, with one trailing llm effect. -/
theorem answerFromDocs_shape (env : Env) (message : Str) (store : SessionStore) (sid : Nat)
    (msgs : List ChatMessage) (docs : List SearchResult) (effects : List Effect) :
    ∃ c : Str, answerFromDocs env message store sid msgs docs effects =
      finishReply store sid msgs (mkAssistantMessage c) (effects ++ [Effect.llm]) := by
  unfold answerFromDocs
  cases h : env.llm message
      (List.intercalate (js "\n\n") (docs.map (fun d => d.metadata.content))) with
  | error e => exact ⟨sendMessageErrorResponse, by simp [h]⟩
  | ok c => exact ⟨c, by simp [h]⟩

/-- On an existing session, every `sendMessage` path ends in a single
`finishReply` appending the user message and one assistant message. -/
theorem sendMessage_shape (env : Env) (message : Str) (store : SessionStore) (sid : Nat)
    (s : ChatSession) (hs : store sid = some s) :
    ∃ (c : Str) (effects : List Effect),
      sendMessage env message store sid =
        finishReply store sid (s.messages ++ [mkUserMessage message])
          (mkAssistantMessage c) effects := by
  unfold sendMessage
  rw [hs]
  by_cases hg : isGreeting message
  · exact ⟨getRandomGreeting env.randomIndex, [], by simp [hg]⟩
  by_cases ht : isThankYou message
  · exact ⟨thankYouResponse, [], by simp [hg, ht]⟩
  by_cases hv : env.vectorAvailable
  · simp only [hg, ht, hv, if_true, if_false, Bool.false_eq_true]
    cases h1 : env.searchDocs (topKOf message) (minScoreOf message) with
    | error e => exact ⟨_, _, rfl⟩
    | ok relevantDocs =>
      by_cases hb : (relevantDocs.isEmpty && decide (1/10 < minScoreOf message)) = true
      · simp only [hb, if_true]
        cases h2 : env.searchDocs 15 (1/10) with
        | error e => exact ⟨_, _, rfl⟩
        | ok relaxedDocs =>
          by_cases he : relaxedDocs.isEmpty
          · simp only [he, if_true]
            exact ⟨_, _, rfl⟩
          · simp only [he, if_false, Bool.false_eq_true]
            obtain ⟨c, hc⟩ := answerFromDocs_shape env message store sid
              (s.messages ++ [mkUserMessage message]) relaxedDocs
              [Effect.embed, Effect.search (topKOf message) (minScoreOf message),
               Effect.search 15 (1/10)]
            exact ⟨c, _, hc⟩
      · simp only [hb, if_false, Bool.false_eq_true]
        by_cases he : relevantDocs.isEmpty
        · simp only [he, if_true]
          exact ⟨_, _, rfl⟩
        · simp only [he, if_false, Bool.false_eq_true]
          obtain ⟨c, hc⟩ := answerFromDocs_shape env message store sid
            (s.messages ++ [mkUserMessage message]) relevantDocs
            [Effect.embed, Effect.search (topKOf message) (minScoreOf message)]
          exact ⟨c, _, hc⟩
  · exact ⟨irrelevantQueryResponse, [], by simp [hg, ht, hv]⟩

/-- `answerFromDocs` adds no search calls to the trace. -/
theorem searchCalls_answerFromDocs (env : Env) (message : Str) (store : SessionStore)
    (sid : Nat) (msgs : List ChatMessage) (docs : List SearchResult) (effects : List Effect) :
    searchCalls (answerFromDocs env message store sid msgs docs effects).effects =
      searchCalls effects := by
  obtain ⟨c, hc⟩ := answerFromDocs_shape env message store sid msgs docs effects
  rw [hc]
  simp [finishReply, searchCalls]

/-- Claim C1: for a substantive (non-greeting, non-thanks) message on an
existing session, if the vector service is absent or both the strict and
the relaxed search return zero passages, the returned assistant message
is exactly the fixed refusal sentence. -/
theorem sendMessage_refuses_on_empty_retrieval (env : Env) (message : Str)
    (store : SessionStore) (sid : Nat) (s : ChatSession)
    (hs : store sid = some s)
    (hg : isGreeting message = false) (ht : isThankYou message = false)
    (hv : env.vectorAvailable = false ∨
      (env.searchDocs (topKOf message) (minScoreOf message) = Except.ok [] ∧
       env.searchDocs 15 (1/10) = Except.ok [])) :
    (sendMessage env message store sid).response =
      mkAssistantMessage irrelevantQueryResponse := by
  have hd : decide ((1:ℚ)/10 < minScoreOf message) = true :=
    decide_eq_true (minScoreOf_gt_tenth message)
  rcases hv with hv | ⟨h1, h2⟩
  · simp only [sendMessage, hs, hg, ht, hv]
    rfl
  · by_cases hv2 : env.vectorAvailable
    · simp only [sendMessage, hs, hg, ht, hv2, if_true, if_false, Bool.false_eq_true, h1,
        List.isEmpty_nil, hd, Bool.and_self, h2]
      rfl
    · simp only [sendMessage, hs, hg, ht, hv2]
      rfl

/-- Witness for C1: an off-topic question against an empty index yields
the refusal sentence. -/
theorem sendMessage_refuses_on_empty_retrieval_witness :
    ((fun k => if k = 0 then some (⟨[]⟩ : ChatSession) else none) 0 = some ⟨[]⟩) ∧
    (sendMessage ⟨true, 0, fun _ _ => Except.ok [], fun _ _ => Except.ok (js "yes")⟩
        (js "what is the maximum voltage")
        (fun k => if k = 0 then some ⟨[]⟩ else none) 0).response =
      mkAssistantMessage irrelevantQueryResponse :=
  ⟨rfl, sendMessage_refuses_on_empty_retrieval _ _ _ _ ⟨[]⟩ rfl (by decide) (by decide)
    (Or.inr ⟨rfl, rfl⟩)⟩

/-- Claim C2: a completed `sendMessage` on an existing session appends
exactly the user message followed by one assistant message, and the
returned message is that assistant message; consequently two sequential
sends produce the four-entry list `[user1, assistant1, user2, assistant2]`. -/
theorem sendMessage_appends_user_then_assistant (env : Env) (message : Str)
    (store : SessionStore) (sid : Nat) (s : ChatSession) (hs : store sid = some s) :
    ∃ a : ChatMessage, a.role = Role.assistant ∧
      (sendMessage env message store sid).response = a ∧
      (sendMessage env message store sid).store sid =
        some ⟨s.messages ++ [mkUserMessage message, a]⟩ ∧
      ∀ (env2 : Env) (message2 : Str), ∃ a2 : ChatMessage, a2.role = Role.assistant ∧
        (sendMessage env2 message2 (sendMessage env message store sid).store sid).store sid =
          some ⟨s.messages ++ [mkUserMessage message, a, mkUserMessage message2, a2]⟩ := by
  obtain ⟨c, effects, hc⟩ := sendMessage_shape env message store sid s hs
  refine ⟨mkAssistantMessage c, rfl, by rw [hc]; rfl, ?_, ?_⟩
  · rw [hc, finishReply_store_self]
    simp
  · intro env2 message2
    obtain ⟨c2, effects2, hc2⟩ := sendMessage_shape env2 message2
      (sendMessage env message store sid).store sid
      ⟨s.messages ++ [mkUserMessage message, mkAssistantMessage c]⟩
      (by rw [hc, finishReply_store_self]; simp)
    refine ⟨mkAssistantMessage c2, rfl, ?_⟩
    rw [hc2, finishReply_store_self]
    simp

/-- Witness for C2 at a concrete empty session. -/
theorem sendMessage_appends_user_then_assistant_witness :
    ((fun k => if k = 0 then some (⟨[]⟩ : ChatSession) else none) 0 = some ⟨[]⟩) ∧
    ∃ a : ChatMessage, a.role = Role.assistant ∧
      (sendMessage ⟨false, 0, fun _ _ => Except.ok [], fun _ _ => Except.ok (js "yes")⟩
          (js "hello")
          (fun k => if k = 0 then some ⟨[]⟩ else none) 0).response = a ∧
      (sendMessage ⟨false, 0, fun _ _ => Except.ok [], fun _ _ => Except.ok (js "yes")⟩
          (js "hello")
          (fun k => if k = 0 then some ⟨[]⟩ else none) 0).store 0 =
        some ⟨[] ++ [mkUserMessage (js "hello"), a]⟩ ∧
      ∀ (env2 : Env) (message2 : Str), ∃ a2 : ChatMessage, a2.role = Role.assistant ∧
        (sendMessage env2 message2
            (sendMessage ⟨false, 0, fun _ _ => Except.ok [], fun _ _ => Except.ok (js "yes")⟩
              (js "hello")
              (fun k => if k = 0 then some ⟨[]⟩ else none) 0).store 0).store 0 =
          some ⟨[] ++ [mkUserMessage (js "hello"), a, mkUserMessage message2, a2]⟩ :=
  ⟨rfl, sendMessage_appends_user_then_assistant _ _ _ _ ⟨[]⟩ rfl⟩

/-- Claim C3: when the strict search of a substantive message returns
zero results, its `minScore` always exceeds `0.1` and the trace contains
exactly two search calls: the strict plan followed by the single relaxed
retry with `topK = 15` and `minScore = 0.1`. -/
theorem sendMessage_exactly_one_relaxed_retry (env : Env) (message : Str)
    (store : SessionStore) (sid : Nat) (s : ChatSession)
    (hs : store sid = some s)
    (hg : isGreeting message = false) (ht : isThankYou message = false)
    (hv : env.vectorAvailable = true)
    (h1 : env.searchDocs (topKOf message) (minScoreOf message) = Except.ok []) :
    1/10 < minScoreOf message ∧
    searchCalls (sendMessage env message store sid).effects =
      [(topKOf message, minScoreOf message), (15, 1/10)] := by
  have hd : decide ((1:ℚ)/10 < minScoreOf message) = true :=
    decide_eq_true (minScoreOf_gt_tenth message)
  refine ⟨minScoreOf_gt_tenth message, ?_⟩
  simp only [sendMessage, hs, hg, ht, hv, if_true, if_false, Bool.false_eq_true, h1,
    List.isEmpty_nil, hd, Bool.and_self]
  cases h2 : env.searchDocs 15 (1/10) with
  | error e => simp [finishReply, searchCalls]
  | ok relaxedDocs =>
    by_cases he : relaxedDocs.isEmpty
    · simp only [he, if_true]
      simp [finishReply, searchCalls]
    · simp only [he, if_false, Bool.false_eq_true]
      rw [searchCalls_answerFromDocs]
      simp [searchCalls]

/-- Witness for C3 on a concrete question with an empty index. -/
theorem sendMessage_exactly_one_relaxed_retry_witness :
    ((fun k => if k = 0 then some (⟨[]⟩ : ChatSession) else none) 0 = some ⟨[]⟩) ∧
    (1:ℚ)/10 < minScoreOf (js "what is the maximum voltage") ∧
    searchCalls (sendMessage
        ⟨true, 0, fun _ _ => Except.ok [], fun _ _ => Except.ok (js "yes")⟩
        (js "what is the maximum voltage")
        (fun k => if k = 0 then some ⟨[]⟩ else none) 0).effects =
      [(topKOf (js "what is the maximum voltage"),
        minScoreOf (js "what is the maximum voltage")), (15, 1/10)] :=
  ⟨rfl, sendMessage_exactly_one_relaxed_retry _ _ _ _ ⟨[]⟩ rfl (by decide) (by decide)
    rfl rfl⟩

/-- Claim C4: provided the backend honors its contract (matches carry
the requested metadata type and arrive ranked by descending score),
`searchDocuments` returns only results scoring at least `minScore`,
restricted to `type = "document"` records, in the ranked order of the
underlying query response (an order-preserving sublist of it). -/
theorem searchDocuments_filtered_typed_ranked
    (query : Nat → Str → List QueryMatch) (topK : Nat) (minScore : ℚ)
    (hfilter : ∀ k f m, m ∈ query k f → m.metadata.type = f)
    (hsort : ∀ k f, ((query k f).map (fun m => m.score.getD 0)).Sorted (· ≥ ·)) :
    (∀ r ∈ searchDocuments query topK minScore,
       minScore ≤ r.score ∧ r.metadata.type = js "document") ∧
    ((searchDocuments query topK minScore).map (fun r => r.score)).Sorted (· ≥ ·) ∧
    List.Sublist ((searchDocuments query topK minScore).map (fun r => r.id))
      ((query topK (js "document")).map (fun m => m.id)) := by
  refine ⟨?_, ?_, ?_⟩
  · intro r hr
    simp only [searchDocuments, List.mem_map, List.mem_filter] at hr
    obtain ⟨m, ⟨hm, hsc⟩, rfl⟩ := hr
    refine ⟨by simpa using hsc, hfilter _ _ m hm⟩
  · have h := hsort topK (js "document")
    rw [List.Sorted, List.pairwise_map] at h
    have h2 := h.filter (fun m => decide (minScore ≤ m.score.getD 0))
    simp only [searchDocuments, List.Sorted, List.pairwise_map]
    exact h2
  · simp only [searchDocuments]
    rw [List.map_map]
    have hcomp : ((fun r => r.id) ∘ fun m : QueryMatch =>
        ({ id := m.id, score := m.score.getD 0, metadata := m.metadata } : SearchResult)) =
        fun m : QueryMatch => m.id := rfl
    rw [hcomp]
    exact (List.filter_sublist _).map _

/-- Witness for C4 on a concrete two-match response. -/
theorem searchDocuments_filtered_typed_ranked_witness :
    (∀ k f (m : QueryMatch),
        m ∈ (fun (_ : Nat) (f : Str) => [⟨js "a", some (9/10), ⟨f, js "x"⟩⟩,
          (⟨js "b", some (2/10), ⟨f, js "y"⟩⟩ : QueryMatch)]) k f → m.metadata.type = f) ∧
    (∀ r ∈ searchDocuments (fun _ f => [⟨js "a", some (9/10), ⟨f, js "x"⟩⟩,
          ⟨js "b", some (2/10), ⟨f, js "y"⟩⟩]) 5 (1/2),
       (1:ℚ)/2 ≤ r.score ∧ r.metadata.type = js "document") := by
  have hfilter : ∀ k f (m : QueryMatch),
      m ∈ (fun (_ : Nat) (f : Str) => [⟨js "a", some (9/10), ⟨f, js "x"⟩⟩,
        (⟨js "b", some (2/10), ⟨f, js "y"⟩⟩ : QueryMatch)]) k f → m.metadata.type = f := by
    intro k f m hm
    simp only [List.mem_cons, List.mem_singleton, List.not_mem_nil, or_false] at hm
    rcases hm with rfl | rfl <;> rfl
  refine ⟨hfilter, ?_⟩
  exact (searchDocuments_filtered_typed_ranked _ 5 (1/2) hfilter
    (by
      intro k f
      simp [List.Sorted]
      norm_num)).1

/-- Folding index-wise updates over a list never changes its length. -/
theorem foldl_set_length {α : Type} (i : List ℚ → α → Nat) (v : List ℚ → α → ℚ) :
    ∀ (l : List α) (e : List ℚ),
      (l.foldl (fun e a => e.set (i e a) (v e a)) e).length = e.length := by
  intro l
  induction l with
  | nil => intro e; rfl
  | cons a as ih =>
    intro e
    rw [List.foldl_cons, ih, List.length_set]

/-- Claim C6: the fallback embedding is a pure function of the text
(equal inputs give bit-for-bit equal outputs, for any interpretation of
`Math.sin`/`Math.sqrt`), and its output has exactly 384 entries for
every input; in this total model it can never throw. -/
theorem generateSimpleEmbedding_deterministic_384 (sin sqrt : ℚ → ℚ) (text1 text2 : Str)
    (heq : text1 = text2) :
    generateSimpleEmbedding sin sqrt text1 384 = generateSimpleEmbedding sin sqrt text2 384 ∧
    (generateSimpleEmbedding sin sqrt text1 384).length = 384 := by
  subst heq
  refine ⟨rfl, ?_⟩
  simp only [generateSimpleEmbedding]
  split
  · rw [List.length_map]
    exact (foldl_set_length _ _ _ _).trans
      ((foldl_set_length _ _ _ _).trans (List.length_replicate 384 0))
  · exact (foldl_set_length _ _ _ _).trans
      ((foldl_set_length _ _ _ _).trans (List.length_replicate 384 0))

/-- Witness for C6 at a concrete text and interpretation. -/
theorem generateSimpleEmbedding_deterministic_384_witness :
    js "hello world" = js "hello world" ∧
    (generateSimpleEmbedding (fun q => q) (fun q => q) (js "hello world") 384).length = 384 :=
  ⟨rfl, (generateSimpleEmbedding_deterministic_384 (fun q => q) (fun q => q)
    (js "hello world") (js "hello world") rfl).2⟩

/-- Claim C7: greeting wins over thanks (a message matching both
vocabularies is answered with the canned greeting), and any message
classified greeting or thanks triggers no embedding, search or model
call. -/
theorem greeting_precedes_thanks_and_short_circuits (env : Env) (message : Str)
    (store : SessionStore) (sid : Nat) (s : ChatSession) (hs : store sid = some s) :
    (isGreeting message = true → isThankYou message = true →
      (sendMessage env message store sid).response =
        mkAssistantMessage (getRandomGreeting env.randomIndex)) ∧
    (isGreeting message = true ∨ isThankYou message = true →
      (sendMessage env message store sid).effects = []) := by
  constructor
  · intro hg _
    simp only [sendMessage, hs, hg, if_true]
    rfl
  · intro h
    by_cases hg : isGreeting message
    · simp only [sendMessage, hs, hg, if_true]
      rfl
    · have ht : isThankYou message = true := by
        rcases h with h | h
        · exact absurd h hg
        · exact h
      simp only [sendMessage, hs, hg, ht, if_true, if_false, Bool.false_eq_true]
      rfl

/-- Witness for C7: `"hi thanks"` matches both vocabularies, is answered
with a greeting, and triggers no external calls. -/
theorem greeting_precedes_thanks_witness :
    ((fun k => if k = 0 then some (⟨[]⟩ : ChatSession) else none) 0 = some ⟨[]⟩) ∧
    isGreeting (js "hi thanks") = true ∧ isThankYou (js "hi thanks") = true ∧
    (sendMessage ⟨true, 0, fun _ _ => Except.ok [], fun _ _ => Except.ok (js "yes")⟩
        (js "hi thanks") (fun k => if k = 0 then some ⟨[]⟩ else none) 0).response =
      mkAssistantMessage (getRandomGreeting 0) ∧
    (sendMessage ⟨true, 0, fun _ _ => Except.ok [], fun _ _ => Except.ok (js "yes")⟩
        (js "hi thanks") (fun k => if k = 0 then some ⟨[]⟩ else none) 0).effects = [] :=
  ⟨rfl, by decide, by decide,
    (greeting_precedes_thanks_and_short_circuits _ _ _ _ ⟨[]⟩ rfl).1 (by decide) (by decide),
    (greeting_precedes_thanks_and_short_circuits _ _ _ _ ⟨[]⟩ rfl).2 (Or.inl (by decide))⟩

/-- Claim C8 (amended): a `sendMessage` call naming no existing session
is not surfaced as a failure; the internal `Session not found` throw is
caught and converted into a normal assistant message carrying the
generic apology text, with no session mutated and no external call
made. -/
theorem sendMessage_missing_session_apology (env : Env) (message : Str)
    (store : SessionStore) (sid : Nat) (hs : store sid = none) :
    sendMessage env message store sid =
      ⟨mkAssistantMessage sendMessageErrorResponse, store, []⟩ := by
  unfold sendMessage
  rw [hs]

/-- Counterexample for C8 as stated: with no session `0`, the call
returns a normal assistant reply (the apology), not a failure result. -/
theorem sendMessage_missing_session_counterexample :
    (sendMessage ⟨true, 0, fun _ _ => Except.ok [], fun _ _ => Except.ok (js "yes")⟩
        (js "what is the maximum voltage") (fun _ => none) 0).response =
      mkAssistantMessage sendMessageErrorResponse ∧
    (sendMessage ⟨true, 0, fun _ _ => Except.ok [], fun _ _ => Except.ok (js "yes")⟩
        (js "what is the maximum voltage") (fun _ => none) 0).response.role =
      Role.assistant ∧
    (sendMessage ⟨true, 0, fun _ _ => Except.ok [], fun _ _ => Except.ok (js "yes")⟩
        (js "what is the maximum voltage") (fun _ => none) 0).store 0 = none ∧
    (sendMessage ⟨true, 0, fun _ _ => Except.ok [], fun _ _ => Except.ok (js "yes")⟩
        (js "what is the maximum voltage") (fun _ => none) 0).effects = [] :=
  ⟨rfl, rfl, rfl, rfl⟩

/-- Witness for the amended C8. -/
theorem sendMessage_missing_session_apology_witness :
    ((fun _ => none : SessionStore) 5 = none) ∧
    sendMessage ⟨false, 0, fun _ _ => Except.ok [], fun _ _ => Except.ok (js "yes")⟩
        (js "hello") (fun _ => none) 5 =
      ⟨mkAssistantMessage sendMessageErrorResponse, (fun _ => none), []⟩ :=
  ⟨rfl, sendMessage_missing_session_apology _ _ _ _ rfl⟩

/-- Claim C9: if the strict search (or the relaxed retry) throws, the
assistant reply appended and returned is the fixed refusal sentence,
exactly as in the empty-retrieval outcome. -/
theorem sendMessage_refuses_on_search_error (env : Env) (message : Str)
    (store : SessionStore) (sid : Nat) (s : ChatSession)
    (hs : store sid = some s)
    (hg : isGreeting message = false) (ht : isThankYou message = false)
    (hv : env.vectorAvailable = true)
    (herr : env.searchDocs (topKOf message) (minScoreOf message) = Except.error () ∨
      (env.searchDocs (topKOf message) (minScoreOf message) = Except.ok [] ∧
       env.searchDocs 15 (1/10) = Except.error ())) :
    (sendMessage env message store sid).response =
      mkAssistantMessage irrelevantQueryResponse ∧
    (sendMessage env message store sid).store sid =
      some ⟨s.messages ++ [mkUserMessage message,
        mkAssistantMessage irrelevantQueryResponse]⟩ := by
  have hd : decide ((1:ℚ)/10 < minScoreOf message) = true :=
    decide_eq_true (minScoreOf_gt_tenth message)
  rcases herr with h1 | ⟨h1, h2⟩
  · simp only [sendMessage, hs, hg, ht, hv, if_true, if_false, Bool.false_eq_true, h1]
    exact ⟨rfl, by rw [finishReply_store_self]; simp⟩
  · simp only [sendMessage, hs, hg, ht, hv, if_true, if_false, Bool.false_eq_true, h1,
      List.isEmpty_nil, hd, Bool.and_self, h2]
    exact ⟨rfl, by rw [finishReply_store_self]; simp⟩

/-- Witness for C9: a throwing search backend produces the refusal. -/
theorem sendMessage_refuses_on_search_error_witness :
    ((fun k => if k = 0 then some (⟨[]⟩ : ChatSession) else none) 0 = some ⟨[]⟩) ∧
    (sendMessage ⟨true, 0, fun _ _ => Except.error (), fun _ _ => Except.ok (js "yes")⟩
        (js "what is the maximum voltage")
        (fun k => if k = 0 then some ⟨[]⟩ else none) 0).response =
      mkAssistantMessage irrelevantQueryResponse :=
  ⟨rfl, (sendMessage_refuses_on_search_error _ _ _ _ ⟨[]⟩ rfl (by decide) (by decide) rfl
    (Or.inl rfl)).1⟩

/-- Claim C10: any message whose trimmed text merely starts with one of
the bare greeting words (`hi`, `hai`, `hello`, `hey`) — even as a prefix
of a longer word such as `history` — is classified as a greeting and
answered with a canned greeting with no retrieval work. -/
theorem greeting_matches_bare_word_starts (env : Env) (message : Str)
    (store : SessionStore) (sid : Nat) (s : ChatSession) (hs : store sid = some s)
    (hpre : (js "hi").isPrefixOf (toLowerJS (trimJS message)) = true ∨
            (js "hai").isPrefixOf (toLowerJS (trimJS message)) = true ∨
            (js "hello").isPrefixOf (toLowerJS (trimJS message)) = true ∨
            (js "hey").isPrefixOf (toLowerJS (trimJS message)) = true) :
    isGreeting message = true ∧
    (sendMessage env message store sid).response =
      mkAssistantMessage (getRandomGreeting env.randomIndex) ∧
    (sendMessage env message store sid).effects = [] := by
  have hg : isGreeting message = true := by
    rcases hpre with h | h | h | h <;>
      simp [isGreeting, greetingPattern1, h]
  refine ⟨hg, ?_, ?_⟩ <;>
    · simp only [sendMessage, hs, hg, if_true]
      rfl

/-- Witness for C10: `"history of the device"` is treated as a greeting
and performs no retrieval. -/
theorem greeting_matches_bare_word_starts_witness :
    ((fun k => if k = 0 then some (⟨[]⟩ : ChatSession) else none) 0 = some ⟨[]⟩) ∧
    (js "hi").isPrefixOf (toLowerJS (trimJS (js "history of the device"))) = true ∧
    isGreeting (js "history of the device") = true ∧
    (sendMessage ⟨true, 0, fun _ _ => Except.ok [], fun _ _ => Except.ok (js "yes")⟩
        (js "history of the device")
        (fun k => if k = 0 then some ⟨[]⟩ else none) 0).response =
      mkAssistantMessage (getRandomGreeting 0) ∧
    (sendMessage ⟨true, 0, fun _ _ => Except.ok [], fun _ _ => Except.ok (js "yes")⟩
        (js "history of the device")
        (fun k => if k = 0 then some ⟨[]⟩ else none) 0).effects = [] := by
  refine ⟨rfl, by decide, ?_, ?_, ?_⟩
  · exact (greeting_matches_bare_word_starts
      ⟨true, 0, fun _ _ => Except.ok [], fun _ _ => Except.ok (js "yes")⟩
      (js "history of the device")
      (fun k => if k = 0 then some ⟨[]⟩ else none) 0 ⟨[]⟩ rfl (Or.inl (by decide))).1
  · exact (greeting_matches_bare_word_starts
      ⟨true, 0, fun _ _ => Except.ok [], fun _ _ => Except.ok (js "yes")⟩
      (js "history of the device")
      (fun k => if k = 0 then some ⟨[]⟩ else none) 0 ⟨[]⟩ rfl (Or.inl (by decide))).2.1
  · exact (greeting_matches_bare_word_starts
      ⟨true, 0, fun _ _ => Except.ok [], fun _ _ => Except.ok (js "yes")⟩
      (js "history of the device")
      (fun k => if k = 0 then some ⟨[]⟩ else none) 0 ⟨[]⟩ rfl (Or.inl (by decide))).2.2

/-- One ghost step erases to one real step. -/
theorem chunkStepG_erase (f : Str) (g : ChunkStateG) (s : Str) :
    eraseG (chunkStepG f g s) = chunkStep f (eraseG g) s := by
  unfold chunkStepG chunkStep eraseG
  simp only []
  split_ifs <;> simp

/-- The ghost fold erases to the real fold. -/
theorem foldl_chunkStepG_erase (f : Str) :
    ∀ (l : List Str) (g : ChunkStateG),
      eraseG (l.foldl (chunkStepG f) g) = l.foldl (chunkStep f) (eraseG g) := by
  intro l
  induction l with
  | nil => intro g; rfl
  | cons s rest ih =>
    intro g
    rw [List.foldl_cons, List.foldl_cons, ih, chunkStepG_erase]

/-- Dropping the ghost flags from `chunkTextG` recovers `chunkText`. -/
theorem chunkTextG_erase (text filename : Str) :
    (chunkTextG text filename).map Prod.fst = chunkText text filename := by
  unfold chunkTextG chunkText
  have h := foldl_chunkStepG_erase filename (sentencesOf text) ⟨[], [], 0, false⟩
  rw [show (⟨[], [], 0⟩ : ChunkState) = eraseG ⟨[], [], 0, false⟩ from rfl, ← h]
  set g := (sentencesOf text).foldl (chunkStepG filename) ⟨[], [], 0, false⟩ with hg
  simp only [eraseG]
  split_ifs with hcond
  · simp [List.map_map, Function.comp]
  · simp [List.map_map, Function.comp]

/-- Trimming never lengthens a string. -/
theorem trimJS_length_le (l : Str) : (trimJS l).length ≤ l.length := by
  unfold trimJS
  have h1 : (l.dropWhile wsJS).length ≤ l.length := (List.dropWhile_sublist wsJS).length_le
  have h2 : ((l.dropWhile wsJS).reverse.dropWhile wsJS).length ≤
      (l.dropWhile wsJS).reverse.length := (List.dropWhile_sublist wsJS).length_le
  simp only [List.length_reverse] at h2 ⊢
  omega

/-- The ghost invariant is preserved by one chunking step, provided the
incoming sentence is within one character of the budget. -/
theorem chunkStepG_inv (f s : Str) (hs : (trimJS s).length ≤ 1001) (g : ChunkStateG)
    (hg : InvG g) : InvG (chunkStepG f g s) := by
  obtain ⟨hcur, hchunks⟩ := hg
  unfold chunkStepG
  simp only []
  split_ifs with h1 h2 h3
  · constructor
    · intro hfalse
      simp at hfalse
    · intro p hp hflag
      rw [List.mem_append] at hp
      rcases hp with hp | hp
      · exact hchunks p hp hflag
      · rw [List.mem_singleton] at hp
        subst hp
        simp only at hflag
        exact (trimJS_length_le g.currentChunk).trans (hcur hflag)
  · exact ⟨fun _ => hs, hchunks⟩
  · refine ⟨?_, hchunks⟩
    intro hseed
    have hguard : g.currentChunk.length + (trimJS s).length + 1 ≤ 1000 := by omega
    simp only [List.length_append, List.length_nil]
    omega
  · refine ⟨?_, hchunks⟩
    intro hseed
    have hguard : g.currentChunk.length + (trimJS s).length + 1 ≤ 1000 := by omega
    simp only [List.length_append, List.length_cons, List.length_nil]
    omega

/-- The ghost invariant is preserved by the whole fold. -/
theorem foldl_chunkStepG_inv (f : Str) :
    ∀ (l : List Str) (g : ChunkStateG),
      (∀ s ∈ l, (trimJS s).length ≤ 1001) → InvG g →
      InvG (l.foldl (chunkStepG f) g) := by
  intro l
  induction l with
  | nil => intro g _ hg; exact hg
  | cons s rest ih =>
    intro g hl hg
    rw [List.foldl_cons]
    exact ih _ (fun x hx => hl x (List.mem_cons_of_mem s hx))
      (chunkStepG_inv f s (hl s (List.mem_cons_self s rest)) g hg)

/-- Claim C5 (amended): the ghost chunking erases to `chunkText`, and
when no trimmed sentence exceeds `maxChunkSize + 1`, every chunk whose
buffer was never seeded with overlap has length at most
`maxChunkSize + 1` (1001: the `'. '` joiner adds one character beyond
the size check).  Overlap-seeded chunks carry flag `true` and may exceed
the budget, as the counterexample shows. -/
theorem chunkText_bounded_unless_seeded (text filename : Str)
    (hsent : ∀ s ∈ sentencesOf text, (trimJS s).length ≤ 1001) :
    (chunkTextG text filename).map Prod.fst = chunkText text filename ∧
    ∀ p ∈ chunkTextG text filename, p.2 = false → p.1.text.length ≤ 1001 := by
  refine ⟨chunkTextG_erase text filename, ?_⟩
  have hinv := foldl_chunkStepG_inv filename (sentencesOf text) ⟨[], [], 0, false⟩ hsent
    ⟨fun _ => by simp, by simp⟩
  unfold chunkTextG
  set g := (sentencesOf text).foldl (chunkStepG filename) ⟨[], [], 0, false⟩ with hgdef
  simp only []
  intro p hp hflag
  rw [List.mem_map] at hp
  obtain ⟨q, hq, rfl⟩ := hp
  simp only at hflag
  have hqlen : q.2 = false → q.1.text.length ≤ 1001 := by
    intro hf
    split_ifs at hq with hcond
    · rw [List.mem_append] at hq
      rcases hq with hq | hq
      · exact hinv.2 q hq hf
      · rw [List.mem_singleton] at hq
        subst hq
        simp only at hf
        exact (trimJS_length_le g.currentChunk).trans (hinv.1 hf)
    · exact hinv.2 q hq hf
  exact hqlen hflag

/-- Witness for the amended C5 at a concrete short text. -/
theorem chunkText_bounded_unless_seeded_witness :
    (∀ s ∈ sentencesOf (js "ab. cd"), (trimJS s).length ≤ 1001) ∧
    ((chunkTextG (js "ab. cd") (js "f")).map Prod.fst = chunkText (js "ab. cd") (js "f") ∧
      ∀ p ∈ chunkTextG (js "ab. cd") (js "f"), p.2 = false → p.1.text.length ≤ 1001) :=
  ⟨by decide, chunkText_bounded_unless_seeded (js "ab. cd") (js "f") (by decide)⟩

/-! Evaluation lemmas for the chunking counterexample. -/

theorem splitEvery_cons_sep {p : Nat → Bool} {c : Nat} (h : p c = true) (l : Str) :
    splitEvery p (c :: l) = [] :: splitEvery p l := by
  simp only [splitEvery, h, if_true]

theorem splitEvery_cons_nonsep {p : Nat → Bool} {c : Nat} (h : p c = false) {l : Str}
    {x : Str} {xs : List Str} (hl : splitEvery p l = x :: xs) :
    splitEvery p (c :: l) = (c :: x) :: xs := by
  simp only [splitEvery, h, Bool.false_eq_true, if_false, hl]

theorem splitEvery_append_nonsep {p : Nat → Bool} :
    ∀ {ys : Str}, (∀ c ∈ ys, p c = false) →
      ∀ {l : Str} {x : Str} {xs : List Str}, splitEvery p l = x :: xs →
      splitEvery p (ys ++ l) = (ys ++ x) :: xs := by
  intro ys
  induction ys with
  | nil => intro _ l x xs hl; simpa using hl
  | cons c rest ih =>
    intro hys l x xs hl
    have hc : p c = false := hys c (List.mem_cons_self c rest)
    have hrest := ih (fun d hd => hys d (List.mem_cons_of_mem c hd)) hl
    rw [List.cons_append, splitEvery_cons_nonsep hc hrest]
    simp

theorem splitEvery_sepFree {p : Nat → Bool} {l : Str} (h : ∀ c ∈ l, p c = false) :
    splitEvery p l = [l] := by
  have h0 : splitEvery p ([] : Str) = [[]] := rfl
  have := splitEvery_append_nonsep h h0
  simpa using this

theorem dropWhile_eq_self_of_all {p : Nat → Bool} {l : Str} (h : ∀ c ∈ l, p c = false) :
    l.dropWhile p = l := by
  cases l with
  | nil => rfl
  | cons c rest =>
    rw [List.dropWhile_cons, if_neg (by simp [h c (List.mem_cons_self c rest)])]

theorem trimJS_of_all {l : Str} (h : ∀ c ∈ l, wsJS c = false) : trimJS l = l := by
  unfold trimJS
  rw [dropWhile_eq_self_of_all h,
    dropWhile_eq_self_of_all (fun c hc => h c (List.mem_reverse.mp hc)),
    List.reverse_reverse]

theorem trimJS_sandwich {a b : Str} (mid : Str) (hane : a ≠ []) (hbne : b ≠ [])
    (hA : ∀ c ∈ a, wsJS c = false) (hB : ∀ c ∈ b, wsJS c = false) :
    trimJS (a ++ mid ++ b) = a ++ mid ++ b := by
  unfold trimJS
  have hda : a.dropWhile wsJS = a := dropWhile_eq_self_of_all hA
  have hdb : b.reverse.dropWhile wsJS = b.reverse :=
    dropWhile_eq_self_of_all (fun c hc => hB c (List.mem_reverse.mp hc))
  have h1 : (a ++ mid ++ b).dropWhile wsJS = a ++ mid ++ b := by
    rw [List.append_assoc, List.dropWhile_append, hda,
      if_neg (by simp [List.isEmpty_iff, hane]), ← List.append_assoc]
  rw [h1]
  have h2 : (a ++ mid ++ b).reverse = b.reverse ++ (mid.reverse ++ a.reverse) := by
    simp [List.reverse_append]
  rw [h2, List.dropWhile_append, hdb, if_neg (by simp [List.isEmpty_iff, hbne])]
  simp [List.reverse_append]

theorem isEmpty_false_of_ne {l : Str} (h : l ≠ []) : l.isEmpty = false := by
  cases hE : l.isEmpty
  · rfl
  · exact absurd (List.isEmpty_iff.mp hE) h

theorem hmemA : ∀ c ∈ exA, c = 97 := fun _ hc => List.eq_of_mem_replicate hc
theorem hmemB : ∀ c ∈ exB, c = 98 := fun _ hc => List.eq_of_mem_replicate hc
theorem lenA : exA.length = 900 := List.length_replicate 900 97
theorem lenB : exB.length = 900 := List.length_replicate 900 98
theorem exAne : exA ≠ [] := List.length_pos.mp (by rw [lenA]; omega)
theorem exBne : exB ≠ [] := List.length_pos.mp (by rw [lenB]; omega)
theorem hwsA : ∀ c ∈ exA, wsJS c = false := fun c hc => by rw [hmemA c hc]; rfl
theorem hwsB : ∀ c ∈ exB, wsJS c = false := fun c hc => by rw [hmemB c hc]; rfl
theorem trimA : trimJS exA = exA := trimJS_of_all hwsA
theorem trimB : trimJS exB = exB := trimJS_of_all hwsB
theorem trim99 : trimJS [99] = [99] := trimJS_of_all (by decide)

theorem hsentA : sentencesOf exTextA = [exA, exB, [99]] := by
  have h99 : splitEvery sentenceSep [99] = [[99]] := splitEvery_sepFree (by decide)
  have h2 : splitEvery sentenceSep ((46:Nat) :: [99]) = [] :: [[99]] := by
    rw [splitEvery_cons_sep rfl, h99]
  have h3 : splitEvery sentenceSep (exB ++ (46:Nat) :: [99]) = (exB ++ []) :: [[99]] :=
    splitEvery_append_nonsep (fun c hc => by rw [hmemB c hc]; rfl) h2
  have h4 : splitEvery sentenceSep ((46:Nat) :: (exB ++ (46:Nat) :: [99])) =
      [] :: ((exB ++ []) :: [[99]]) := by
    rw [splitEvery_cons_sep rfl, h3]
  have h5 : splitEvery sentenceSep (exA ++ (46:Nat) :: (exB ++ (46:Nat) :: [99])) =
      (exA ++ []) :: ((exB ++ []) :: [[99]]) :=
    splitEvery_append_nonsep (fun c hc => by rw [hmemA c hc]; rfl) h4
  have hshape : exTextA = exA ++ (46:Nat) :: (exB ++ (46:Nat) :: [99]) := by
    simp [exTextA, List.append_assoc]
  unfold sentencesOf splitRuns
  rw [hshape, h5]
  simp only [List.append_nil]
  rw [show keepLast [exB, [99]] = [exB, [99]] by
    simp [keepLast, isEmpty_false_of_ne exBne]]
  simp [List.filter, trimA, trimB, trim99, lenA, lenB]

theorem stepA1 : chunkStep (js "f") ⟨[], [], 0⟩ exA = ⟨[], exA, 0⟩ := by
  unfold chunkStep
  rw [trimA]
  rw [if_neg (by simp only [List.length_nil, lenA]; omega)]
  simp

theorem stepA2 : chunkStep (js "f") ⟨[], exA, 0⟩ exB =
    ⟨[⟨exA, js "f", 0, 0⟩], exA ++ [32] ++ exB, 1⟩ := by
  unfold chunkStep
  rw [trimB]
  rw [if_pos (by simp only [lenA, lenB]; omega)]
  rw [trimA, if_pos (by rw [lenA]; omega)]
  rw [show splitEvery (fun c => c == 32) exA = [exA] from
    splitEvery_sepFree (fun c hc => by rw [hmemA c hc]; rfl)]
  simp [List.intercalate, trimA]

theorem trimAB : trimJS (exA ++ [32] ++ exB) = exA ++ [32] ++ exB :=
  trimJS_sandwich [32] exAne exBne hwsA hwsB

theorem wordsAB : splitEvery (fun c => c == 32) (exA ++ [32] ++ exB) = [exA, exB] := by
  have hB : splitEvery (fun c => c == 32) exB = [exB] :=
    splitEvery_sepFree (fun c hc => by rw [hmemB c hc]; rfl)
  have h2 : splitEvery (fun c => c == 32) ((32:Nat) :: exB) = [] :: [exB] := by
    rw [splitEvery_cons_sep rfl, hB]
  have h3 : splitEvery (fun c => c == 32) (exA ++ (32:Nat) :: exB) = (exA ++ []) :: [exB] :=
    splitEvery_append_nonsep (fun c hc => by rw [hmemA c hc]; rfl) h2
  rw [List.append_assoc, List.singleton_append, h3]
  simp

theorem stepA3 : chunkStep (js "f") ⟨[⟨exA, js "f", 0, 0⟩], exA ++ [32] ++ exB, 1⟩ [99] =
    ⟨[⟨exA, js "f", 0, 0⟩, ⟨exA ++ [32] ++ exB, js "f", 1, 0⟩],
      (exA ++ [32] ++ exB) ++ [32] ++ [99], 2⟩ := by
  unfold chunkStep
  rw [trim99]
  rw [if_pos (by
    simp only [List.length_append, lenA, lenB, List.length_cons, List.length_nil]
    omega)]
  rw [trimAB, if_pos (by
    simp only [List.length_append, lenA, lenB, List.length_cons, List.length_nil]
    omega)]
  rw [wordsAB]
  dsimp only
  rw [show List.drop ([exA, exB].length - 16) [exA, exB] = [exA, exB] from by simp]
  rw [show List.intercalate [32] [exA, exB] = exA ++ [32] ++ exB from by
    simp [List.intercalate, List.intersperse]]
  simp only [List.cons_append, List.nil_append]

theorem trimAB99 : trimJS ((exA ++ [32] ++ exB) ++ [32] ++ [99]) =
    (exA ++ [32] ++ exB) ++ [32] ++ [99] := by
  have h := trimJS_sandwich ([32] ++ exB ++ [32]) exAne (by simp : ([99]:Str) ≠ [])
    hwsA (by decide)
  calc trimJS ((exA ++ [32] ++ exB) ++ [32] ++ [99])
      = trimJS (exA ++ ([32] ++ exB ++ [32]) ++ [99]) := by
        rw [show (exA ++ [32] ++ exB) ++ [32] ++ [99] =
          exA ++ ([32] ++ exB ++ [32]) ++ [99] by simp [List.append_assoc]]
    _ = exA ++ ([32] ++ exB ++ [32]) ++ [99] := h
    _ = (exA ++ [32] ++ exB) ++ [32] ++ [99] := by simp [List.append_assoc]

theorem hfoldA : List.foldl (chunkStep (js "f")) ⟨[], [], 0⟩ [exA, exB, [99]] =
    ⟨[⟨exA, js "f", 0, 0⟩, ⟨exA ++ [32] ++ exB, js "f", 1, 0⟩],
      (exA ++ [32] ++ exB) ++ [32] ++ [99], 2⟩ := by
  rw [List.foldl_cons, stepA1, List.foldl_cons, stepA2, List.foldl_cons, stepA3,
    List.foldl_nil]

theorem hchunkA : chunkText exTextA (js "f") =
    [⟨exA, js "f", 0, 3⟩, ⟨exA ++ [32] ++ exB, js "f", 1, 3⟩,
     ⟨(exA ++ [32] ++ exB) ++ [32] ++ [99], js "f", 2, 3⟩] := by
  unfold chunkText
  rw [hsentA, hfoldA]
  dsimp only
  rw [trimAB99]
  rw [if_pos (by
    simp only [List.length_append, lenA, lenB, List.length_cons, List.length_nil]
    omega)]
  rfl

theorem chunkTextA_overflow :
    (∀ s ∈ sentencesOf exTextA, (trimJS s).length ≤ 1000) ∧
    ∃ c ∈ chunkText exTextA (js "f"), 1000 < c.text.length := by
  constructor
  · rw [hsentA]
    intro s hs
    rw [List.mem_cons, List.mem_cons, List.mem_singleton] at hs
    rcases hs with rfl | rfl | rfl
    · rw [trimA, lenA]; omega
    · rw [trimB, lenB]; omega
    · rw [trim99]; simp
  · refine ⟨⟨exA ++ [32] ++ exB, js "f", 1, 3⟩, ?_, ?_⟩
    · rw [hchunkA]; simp
    · simp only [List.length_append, lenA, lenB, List.length_cons, List.length_nil]
      omega

theorem hmemX : ∀ c ∈ exX, c = 120 := fun _ hc => List.eq_of_mem_replicate hc
theorem hmemY : ∀ c ∈ exY, c = 121 := fun _ hc => List.eq_of_mem_replicate hc
theorem lenX : exX.length = 499 := List.length_replicate 499 120
theorem lenY : exY.length = 500 := List.length_replicate 500 121
theorem exXne : exX ≠ [] := List.length_pos.mp (by rw [lenX]; omega)
theorem exYne : exY ≠ [] := List.length_pos.mp (by rw [lenY]; omega)
theorem hwsX : ∀ c ∈ exX, wsJS c = false := fun c hc => by rw [hmemX c hc]; rfl
theorem hwsY : ∀ c ∈ exY, wsJS c = false := fun c hc => by rw [hmemY c hc]; rfl
theorem trimX : trimJS exX = exX := trimJS_of_all hwsX
theorem trimY : trimJS exY = exY := trimJS_of_all hwsY
theorem trim119 : trimJS [119] = [119] := trimJS_of_all (by decide)

theorem hsentB : sentencesOf exTextB = [exX, exY, [119]] := by
  have h119 : splitEvery sentenceSep [119] = [[119]] := splitEvery_sepFree (by decide)
  have h2 : splitEvery sentenceSep ((46:Nat) :: [119]) = [] :: [[119]] := by
    rw [splitEvery_cons_sep rfl, h119]
  have h3 : splitEvery sentenceSep (exY ++ (46:Nat) :: [119]) = (exY ++ []) :: [[119]] :=
    splitEvery_append_nonsep (fun c hc => by rw [hmemY c hc]; rfl) h2
  have h4 : splitEvery sentenceSep ((46:Nat) :: (exY ++ (46:Nat) :: [119])) =
      [] :: ((exY ++ []) :: [[119]]) := by
    rw [splitEvery_cons_sep rfl, h3]
  have h5 : splitEvery sentenceSep (exX ++ (46:Nat) :: (exY ++ (46:Nat) :: [119])) =
      (exX ++ []) :: ((exY ++ []) :: [[119]]) :=
    splitEvery_append_nonsep (fun c hc => by rw [hmemX c hc]; rfl) h4
  have hshape : exTextB = exX ++ (46:Nat) :: (exY ++ (46:Nat) :: [119]) := by
    simp [exTextB, List.append_assoc]
  unfold sentencesOf splitRuns
  rw [hshape, h5]
  simp only [List.append_nil]
  rw [show keepLast [exY, [119]] = [exY, [119]] by
    simp [keepLast, isEmpty_false_of_ne exYne]]
  simp [List.filter, trimX, trimY, trim119, lenX, lenY]

theorem stepB1 : chunkStep (js "f") ⟨[], [], 0⟩ exX = ⟨[], exX, 0⟩ := by
  unfold chunkStep
  rw [trimX]
  rw [if_neg (by simp only [List.length_nil, lenX]; omega)]
  simp

theorem stepB2 : chunkStep (js "f") ⟨[], exX, 0⟩ exY = ⟨[], exX ++ [46, 32] ++ exY, 0⟩ := by
  unfold chunkStep
  rw [trimY]
  rw [if_neg (by simp only [lenX, lenY]; omega)]
  simp only [isEmpty_false_of_ne exXne, Bool.false_eq_true, if_false]

theorem trimXY : trimJS (exX ++ [46, 32] ++ exY) = exX ++ [46, 32] ++ exY :=
  trimJS_sandwich [46, 32] exXne exYne hwsX hwsY

theorem wordsXY : splitEvery (fun c => c == 32) (exX ++ [46, 32] ++ exY) =
    [exX ++ [46], exY] := by
  have hY : splitEvery (fun c => c == 32) exY = [exY] :=
    splitEvery_sepFree (fun c hc => by rw [hmemY c hc]; rfl)
  have h2 : splitEvery (fun c => c == 32) ((32:Nat) :: exY) = [] :: [exY] := by
    rw [splitEvery_cons_sep rfl, hY]
  have h3 : splitEvery (fun c => c == 32) ((exX ++ [46]) ++ (32:Nat) :: exY) =
      ((exX ++ [46]) ++ []) :: [exY] :=
    splitEvery_append_nonsep
      (fun c hc => by
        rw [List.mem_append] at hc
        rcases hc with hc | hc
        · rw [hmemX c hc]; rfl
        · rw [List.mem_singleton] at hc; rw [hc]; rfl)
      h2
  rw [show exX ++ [46, 32] ++ exY = (exX ++ [46]) ++ (32:Nat) :: exY by
    simp [List.append_assoc]]
  rw [h3]
  simp

theorem stepB3 : chunkStep (js "f") ⟨[], exX ++ [46, 32] ++ exY, 0⟩ [119] =
    ⟨[⟨exX ++ [46, 32] ++ exY, js "f", 0, 0⟩],
      ((exX ++ [46]) ++ [32] ++ exY) ++ [32] ++ [119], 1⟩ := by
  unfold chunkStep
  rw [trim119]
  rw [if_pos (by
    simp only [List.length_append, lenX, lenY, List.length_cons, List.length_nil]
    omega)]
  rw [trimXY, if_pos (by
    simp only [List.length_append, lenX, lenY, List.length_cons, List.length_nil]
    omega)]
  rw [wordsXY]
  dsimp only
  rw [show List.drop ([exX ++ [46], exY].length - 16) [exX ++ [46], exY] =
    [exX ++ [46], exY] from by simp]
  rw [show List.intercalate [32] [exX ++ [46], exY] = (exX ++ [46]) ++ [32] ++ exY from by
    simp [List.intercalate, List.intersperse]]
  simp only [List.cons_append, List.nil_append]

theorem trimXY119 : trimJS (((exX ++ [46]) ++ [32] ++ exY) ++ [32] ++ [119]) =
    ((exX ++ [46]) ++ [32] ++ exY) ++ [32] ++ [119] := by
  have h := trimJS_sandwich ([46, 32] ++ exY ++ [32]) exXne
    (by simp : ([119]:Str) ≠ []) hwsX (by decide)
  calc trimJS (((exX ++ [46]) ++ [32] ++ exY) ++ [32] ++ [119])
      = trimJS (exX ++ ([46, 32] ++ exY ++ [32]) ++ [119]) := by
        rw [show ((exX ++ [46]) ++ [32] ++ exY) ++ [32] ++ [119] =
          exX ++ ([46, 32] ++ exY ++ [32]) ++ [119] by simp [List.append_assoc]]
    _ = exX ++ ([46, 32] ++ exY ++ [32]) ++ [119] := h
    _ = ((exX ++ [46]) ++ [32] ++ exY) ++ [32] ++ [119] := by simp [List.append_assoc]

theorem hfoldB : List.foldl (chunkStep (js "f")) ⟨[], [], 0⟩ [exX, exY, [119]] =
    ⟨[⟨exX ++ [46, 32] ++ exY, js "f", 0, 0⟩],
      ((exX ++ [46]) ++ [32] ++ exY) ++ [32] ++ [119], 1⟩ := by
  rw [List.foldl_cons, stepB1, List.foldl_cons, stepB2, List.foldl_cons, stepB3,
    List.foldl_nil]

theorem hchunkB : chunkText exTextB (js "f") =
    [⟨exX ++ [46, 32] ++ exY, js "f", 0, 2⟩,
     ⟨((exX ++ [46]) ++ [32] ++ exY) ++ [32] ++ [119], js "f", 1, 2⟩] := by
  unfold chunkText
  rw [hsentB, hfoldB]
  dsimp only
  rw [trimXY119]
  rw [if_pos (by
    simp only [List.length_append, lenX, lenY, List.length_cons, List.length_nil]
    omega)]
  rfl

theorem chunkTextB_overflow :
    (∀ s ∈ sentencesOf exTextB, (trimJS s).length ≤ 1000) ∧
    ∃ c ∈ chunkText exTextB (js "f"), 1000 < c.text.length := by
  constructor
  · rw [hsentB]
    intro s hs
    rw [List.mem_cons, List.mem_cons, List.mem_singleton] at hs
    rcases hs with rfl | rfl | rfl
    · rw [trimX, lenX]; omega
    · rw [trimY, lenY]; omega
    · rw [trim119]; simp
  · refine ⟨⟨exX ++ [46, 32] ++ exY, js "f", 0, 2⟩, ?_, ?_⟩
    · rw [hchunkB]; simp
    · simp only [List.length_append, lenX, lenY, List.length_cons, List.length_nil]
      omega

/-- Counterexample for C5 as stated: on `exTextA` (sentences of 900, 900
and 1 characters) the overlap seed closes an 1801-character chunk, and on
`exTextB` (sentences of 499, 500 and 1 characters, no seeding involved)
the `'. '` joiner closes a 1001-character chunk — in both cases a chunk
exceeds `maxChunkSize = 1000` although no single sentence does. -/
theorem chunkText_exceeds_budget_counterexample :
    ((∀ s ∈ sentencesOf exTextA, (trimJS s).length ≤ 1000) ∧
      ∃ c ∈ chunkText exTextA (js "f"), 1000 < c.text.length) ∧
    ((∀ s ∈ sentencesOf exTextB, (trimJS s).length ≤ 1000) ∧
      ∃ c ∈ chunkText exTextB (js "f"), 1000 < c.text.length) :=
  ⟨chunkTextA_overflow, chunkTextB_overflow⟩
